import Mathlib

/-!
Verification of the DegenDuel MCP server (tool-invocation core and
HTTP/SSE session transport) against its design document.

The definitions below are a shallow embedding of the TypeScript sources:
`src/index.ts` (request dispatcher and tool registry), `src/httpServer.ts`
(session transport), `src/tools/screenshot.ts`, `src/tools/architect.ts`
and `src/tools/codeReview.ts` (tool handlers), together with a model of
the zod object-schema validation the sources call through
`<Schema>.parse(args)`.  External effects (browser capture, the OpenAI
call, the git subprocess, path resolution) are supplied by an explicit
environment record, so every handler is a pure function of its arguments
and that environment.
-/

namespace DegenDuelMcp

/-! ## Content parts and tool results -/

/-- One entry of a tool result's `content` array: either
`\x7btype:"text", text\x7d` or `\x7btype:"image", image_url:\x7burl\x7d\x7d`. -/
inductive ContentPart where
  | text (text : String)
  | image (imageUrl : String)
deriving DecidableEq, Repr

def ContentPart.isText : ContentPart → Bool
  | .text _ => true
  | .image _ => false

def ContentPart.isImage : ContentPart → Bool
  | .text _ => false
  | .image _ => true

/-- A tool handler's output: an ordered sequence of content parts. -/
structure ToolResult where
  content : List ContentPart
deriving DecidableEq, Repr

/-! ## Raw JSON-ish argument values and the zod validation model

The three tool schemas in this repository are flat `z.object` schemas
whose fields are all `z.string()`, possibly `.optional()` and possibly
with a `.min(len, msg)` check.  `zodIssues` models how zod validates such
an object: each declared field is checked in declaration order; a field
contributes at most one issue (zod stops a field's own check chain at the
first failure), and the issues of all fields are collected — zod does not
stop at the first failing field. -/

inductive ZValue where
  | str (s : String)
  | num (n : Int)
  | bool (b : Bool)
deriving DecidableEq, Repr

/-- A raw argument object, as the key/value pairs of the JSON body. -/
abbrev RawArgs := List (String × ZValue)

inductive ZodIssueCode where
  | invalidType
  | tooSmall
deriving DecidableEq, Repr

/-- One entry of a ZodError's `issues` array. -/
structure ZodIssue where
  code : ZodIssueCode
  path : List String
  message : String
deriving DecidableEq, Repr

/-- A declared string field of one of this repository's `z.object` schemas:
its key, whether it is `.optional()`, and its `.min` bound (0 when absent)
with the accompanying message. -/
structure ZStringField where
  name : String
  optional : Bool
  minLength : Nat
  minMessage : String
deriving DecidableEq, Repr

def getField (raw : RawArgs) (name : String) : Option ZValue :=
  (raw.find? (fun p => p.1 == name)).map Prod.snd

/-- zod's check of one declared string field against the raw object:
missing required field → `invalid_type` ("Required"); present non-string →
`invalid_type`; string shorter than the `.min` bound → `too_small` with the
declared message.  At most one issue per field. -/
def checkStringField (raw : RawArgs) (f : ZStringField) : Option ZodIssue :=
  match getField raw f.name with
  | none =>
      if f.optional then none
      else some ⟨.invalidType, [f.name], "Required"⟩
  | some (.str s) =>
      if s.length < f.minLength then some ⟨.tooSmall, [f.name], f.minMessage⟩
      else none
  | some _ => some ⟨.invalidType, [f.name], "Expected string"⟩

/-- All issues zod reports for a flat string-object schema, in field
declaration order. -/
def zodIssues (fields : List ZStringField) (raw : RawArgs) : List ZodIssue :=
  fields.filterMap (checkStringField raw)

/-- The string value of a validated present field (used only after
validation succeeded, where the field is known to be a string). -/
def getStr (raw : RawArgs) (name : String) : String :=
  match getField raw name with
  | some (.str s) => s
  | _ => ""

def getStrOpt (raw : RawArgs) (name : String) : Option String :=
  match getField raw name with
  | some (.str s) => some s
  | _ => none

/-- Deterministic rendering of a ZodError's issue list into the thrown
error's message. -/
def zodIssueRender (i : ZodIssue) : String :=
  String.intercalate "." i.path ++ ": " ++ i.message

def zodErrorMessage (issues : List ZodIssue) : String :=
  String.intercalate "; " (issues.map zodIssueRender)

/-! ## The three tool schemas (from `src/tools/*.ts`) -/

def screenshotToolName : String := "screenshot"
def architectToolName : String := "architect"
def codeReviewToolName : String := "code-review"

/-- `src/env/config.ts`: the configured server port. -/
def PORT : Nat := 3333

/-- `ScreenshotToolSchema` (`src/tools/screenshot.ts`): url and relativePath
optional strings, fullPathToScreenshot a required string. -/
def ScreenshotToolSchemaFields : List ZStringField :=
  [ ⟨"url", true, 0, ""⟩,
    ⟨"relativePath", true, 0, ""⟩,
    ⟨"fullPathToScreenshot", false, 0, ""⟩ ]

/-- `ArchitectToolSchema` (`src/tools/architect.ts`): task and code required
non-empty strings. -/
def ArchitectToolSchemaFields : List ZStringField :=
  [ ⟨"task", false, 1, "Task description is required."⟩,
    ⟨"code", false, 1, "Code string is required (one or more files concatenated)."⟩ ]

/-- `CodeReviewToolSchema` (`src/tools/codeReview.ts`): folderPath a required
non-empty string. -/
def CodeReviewToolSchemaFields : List ZStringField :=
  [ ⟨"folderPath", false, 1, "A folder path is required."⟩ ]

structure ScreenshotArgs where
  url : Option String
  relativePath : Option String
  fullPathToScreenshot : String
deriving DecidableEq, Repr

structure ArchitectArgs where
  task : String
  code : String
deriving DecidableEq, Repr

structure CodeReviewArgs where
  folderPath : String
deriving DecidableEq, Repr

/-- `ScreenshotToolSchema.parse`: throws the collected issues when any field
check fails, otherwise yields the typed arguments. -/
def ScreenshotToolSchema.parse (raw : RawArgs) :
    Except (List ZodIssue) ScreenshotArgs :=
  match zodIssues ScreenshotToolSchemaFields raw with
  | [] => .ok ⟨getStrOpt raw "url", getStrOpt raw "relativePath",
                getStr raw "fullPathToScreenshot"⟩
  | issues => .error issues

/-- `ArchitectToolSchema.parse`. -/
def ArchitectToolSchema.parse (raw : RawArgs) :
    Except (List ZodIssue) ArchitectArgs :=
  match zodIssues ArchitectToolSchemaFields raw with
  | [] => .ok ⟨getStr raw "task", getStr raw "code"⟩
  | issues => .error issues

/-- `CodeReviewToolSchema.parse`. -/
def CodeReviewToolSchema.parse (raw : RawArgs) :
    Except (List ZodIssue) CodeReviewArgs :=
  match zodIssues CodeReviewToolSchemaFields raw with
  | [] => .ok ⟨getStr raw "folderPath"⟩
  | issues => .error issues

/-! ## Tool handlers

External effects are supplied by `HandlerEnv`: the base64 of the captured
screenshot bytes (the puppeteer capture, or its fallback, always yields a
buffer that is then base64-encoded), `path.resolve`, the outcome of the
final `fs.promises.writeFile` save, the outcome of the OpenAI chat call,
and the outcome of `git -C <folderPath> diff`. -/

/-- A JavaScript string-or-undefined value is falsy exactly when it is
`undefined` or the empty string. -/
def jsFalsyString : Option String → Bool
  | none => true
  | some s => s == ""

structure HandlerEnv where
  screenshotBase64 : String
  resolvePath : String → String
  /-- outcome of `fs.promises.writeFile` at the resolved screenshot path
  (`screenshot.ts` performs this save outside any try/catch, so a failure
  propagates as a raise out of the handler). -/
  writeFile : String → Except String Unit
  architectOutcome : Except String String
  gitDiff : String → Except String String

/-- `replace(/^\//, "")`: drop a single leading slash. -/
def stripLeadingSlash (s : String) : String :=
  if s.startsWith "/" then s.drop 1 else s

/-- `runScreenshotTool` (`src/tools/screenshot.ts`).  `let finalUrl =
args.url; if (!finalUrl)` — a missing *or empty* url falls through (JS
falsiness); then a missing or empty relativePath raises (models
`throw new Error`), else the localhost URL is built (where the value is
used it is known non-falsy, so `getD ""` returns the present string).
The capture itself never changes the result shape (a puppeteer failure
falls back to a buffer as well), but the final `fs.promises.writeFile`
save sits outside any try/catch and its failure raises out of the
handler.  On success: a text part followed by an image part. -/
def runScreenshotTool (env : HandlerEnv) (args : ScreenshotArgs) :
    Except String ToolResult :=
  let finalUrl? : Except String String :=
    if jsFalsyString args.url then
      if jsFalsyString args.relativePath then
        .error "Must provide either \x27url\x27 or \x27relativePath\x27"
      else
        .ok ("http://localhost:" ++ toString PORT ++ "/"
              ++ stripLeadingSlash (args.relativePath.getD ""))
    else .ok (args.url.getD "")
  match finalUrl? with
  | .error e => .error e
  | .ok finalUrl =>
    let fullPathToScreenshot := env.resolvePath args.fullPathToScreenshot
    match env.writeFile fullPathToScreenshot with
    | .error e => .error e
    | .ok _ =>
      .ok { content :=
        [ .text ("Screenshot of " ++ finalUrl ++ " has been captured and saved to "
                 ++ fullPathToScreenshot ++ "."),
          .image ("data:image/png;base64," ++ env.screenshotBase64) ] }

/-- `runArchitectTool` (`src/tools/architect.ts`): one text part, the model's
answer on success, `OpenAI Error: ...` when the request failed; never
raises. -/
def runArchitectTool (env : HandlerEnv) (_args : ArchitectArgs) :
    Except String ToolResult :=
  match env.architectOutcome with
  | .ok msg => .ok { content := [ .text msg ] }
  | .error e => .ok { content := [ .text ("OpenAI Error: " ++ e) ] }

def codeReviewInstructions : String :=
  "Review this diff for any obvious issues. Fix them if found, then finalize the changes."

/-- `runCodeReviewTool` (`src/tools/codeReview.ts`): total — the `execSync`
call sits inside a try/catch whose catch branch embeds the error into
`diffOutput`, so the handler always returns one text part and never
raises. -/
def runCodeReviewTool (env : HandlerEnv) (args : CodeReviewArgs) : ToolResult :=
  let diffOutput :=
    match env.gitDiff args.folderPath with
    | .ok d => d
    | .error e => "Error running git diff: " ++ e
  { content := [ .text ("Git Diff Output:\n" ++ diffOutput
      ++ "\n\nInstructions:\n" ++ codeReviewInstructions) ] }

/-! ## RPC envelopes and the request dispatcher (`src/index.ts`) -/

/-- The correlation id of an RPC envelope. -/
inductive RpcId where
  | str (s : String)
  | num (n : Int)
deriving DecidableEq, Repr

inductive RpcMethod where
  | listTools (params : Option RawArgs)
  | callTool (name : String) (arguments : RawArgs)
deriving DecidableEq, Repr

structure RpcRequest where
  id : RpcId
  method : RpcMethod
deriving DecidableEq, Repr

/-- JSON-RPC error codes used by the protocol layer. -/
def methodNotFoundCode : Int := -32601
def invalidParamsCode : Int := -32602
def internalErrorCode : Int := -32603

structure RpcError where
  code : Int
  message : String
  dataDetail : Option String
deriving DecidableEq, Repr

/-- A tool descriptor's `inputSchema` as written literally in the
`listTools` handler of `src/index.ts`: property names with their
descriptions, plus the `required` list. -/
structure PropertySchema where
  name : String
  description : String
deriving DecidableEq, Repr

structure InputSchema where
  type : String
  properties : List PropertySchema
  required : List String
deriving DecidableEq, Repr

structure ToolDescriptor where
  name : String
  description : String
  inputSchema : InputSchema
deriving DecidableEq, Repr

inductive RpcResult where
  | tools (tools : List ToolDescriptor)
  | toolResult (r : ToolResult)
deriving DecidableEq, Repr

inductive RpcOutcome where
  | result (r : RpcResult)
  | error (e : RpcError)
deriving DecidableEq, Repr

structure RpcResponse where
  id : RpcId
  outcome : RpcOutcome
deriving DecidableEq, Repr

/-- `src/tools/screenshot.ts`. -/
def screenshotToolDescription : String :=
  "Take a screenshot of a URL or a local path (relative URL appended to http://localhost:3333)."

/-- `src/tools/architect.ts`. -/
def architectToolDescription : String :=
  "Analyzes a task description plus some code, then outlines steps for an AI coding agent."

/-- `src/tools/codeReview.ts`. -/
def codeReviewToolDescription : String :=
  "Run a git diff against main on a specified file and provide instructions to review/fix issues."

/-- The screenshot descriptor from the `listTools` handler literal in
`src/index.ts` (note its `required` list is empty there). -/
def screenshotDescriptor : ToolDescriptor :=
  { name := screenshotToolName,
    description := screenshotToolDescription,
    inputSchema :=
      { type := "object",
        properties :=
          [ ⟨"url", "Full URL to screenshot (e.g., https://example.com)"⟩,
            ⟨"relativePath",
             "Relative path appended to http://localhost:3333 (e.g., \x27dashboard\x27 becomes http://localhost:3333/dashboard)"⟩,
            ⟨"fullPathToScreenshot",
             "Path where the screenshot will be saved (e.g., /tmp/screenshot.png)"⟩ ],
        required := [] } }

def architectDescriptor : ToolDescriptor :=
  { name := architectToolName,
    description := architectToolDescription,
    inputSchema :=
      { type := "object",
        properties :=
          [ ⟨"task", "Description of the task"⟩,
            ⟨"code", "Concatenated code from one or more files"⟩ ],
        required := ["task", "code"] } }

def codeReviewDescriptor : ToolDescriptor :=
  { name := codeReviewToolName,
    description := codeReviewToolDescription,
    inputSchema :=
      { type := "object",
        properties :=
          [ ⟨"folderPath",
             "Path to the full root directory of the repository to diff against main"⟩ ],
        required := ["folderPath"] } }

/-- The fixed registry: the descriptor list returned by the
`ListToolsRequestSchema` handler of `src/index.ts`, in source order. -/
def registeredTools : List ToolDescriptor :=
  [ screenshotDescriptor, architectDescriptor, codeReviewDescriptor ]

/-- The `ListToolsRequestSchema` handler: a constant function of the
request. -/
def listToolsHandler (_request : Option RawArgs) : List ToolDescriptor :=
  registeredTools

/-- The `CallToolRequestSchema` handler of `src/index.ts`: switch on the
tool name; each known branch parses the arguments with the tool's zod
schema (a failed parse raises the ZodError, modelled by `Except.error`
carrying the rendered issue list) and then runs the tool; the default
branch raises `Unknown tool: <name>`. -/
def callToolHandler (env : HandlerEnv) (name : String) (args : RawArgs) :
    Except String ToolResult :=
  if name == screenshotToolName then
    match ScreenshotToolSchema.parse args with
    | .error issues => .error (zodErrorMessage issues)
    | .ok v => runScreenshotTool env v
  else if name == architectToolName then
    match ArchitectToolSchema.parse args with
    | .error issues => .error (zodErrorMessage issues)
    | .ok v => runArchitectTool env v
  else if name == codeReviewToolName then
    match CodeReviewToolSchema.parse args with
    | .error issues => .error (zodErrorMessage issues)
    | .ok v => .ok (runCodeReviewTool env v)
  else
    .error ("Unknown tool: " ++ name)

/-- Modelled from the spec: the protocol boundary around the request
handlers — the part of the dispatch pipeline implemented by the MCP SDK,
which is not among this repository's sources.  Per the spec, "A handler
that raises is caught at this boundary and converted to an `error`
envelope with code \"internal error\" and the raised message as
`error.data.detail`", and every envelope echoes the request's `id`. -/
def dispatch (env : HandlerEnv) (req : RpcRequest) : RpcResponse :=
  match req.method with
  | .listTools p => { id := req.id, outcome := .result (.tools (listToolsHandler p)) }
  | .callTool name args =>
    match callToolHandler env name args with
    | .ok r => { id := req.id, outcome := .result (.toolResult r) }
    | .error msg =>
      { id := req.id,
        outcome := .error { code := internalErrorCode, message := "internal error",
                            dataDetail := some msg } }

/-- Processing a sequence of requests on one session: the dispatcher is
stateless across requests, so each request is answered independently. -/
def dispatchAll (env : HandlerEnv) (reqs : List RpcRequest) : List RpcResponse :=
  reqs.map (dispatch env)

/-! ## The HTTP/SSE session transport (`src/httpServer.ts`)

The session table is the `sessions` map of `startHttpServer`.  The SDK
mints a fresh unique session id per transport; freshness is modelled by a
counter, so session ids are naturals here.  A per-session transport
records whether `Server.connect` ever wired the dispatcher to it (setting
its message callback): `startHttpServer` never uses its `mcpServer`
parameter and nothing else connects the per-session transports (only the
dummy transport returned from `startHttpServer` is connected in
`src/index.ts`), so sessions are created with `connected := false`. -/

structure SSESession where
  sessionId : Nat
  connected : Bool
  /-- envelopes forwarded to the transport's message callback (i.e. handed
  to the Request Dispatcher). -/
  dispatched : List RpcRequest
  /-- RPC responses emitted as events on this session's SSE stream. -/
  streamed : List RpcResponse
deriving DecidableEq, Repr

structure HttpState where
  sessions : List (Nat × SSESession)
  nextSessionId : Nat
deriving DecidableEq, Repr

def initialHttpState : HttpState := { sessions := [], nextSessionId := 0 }

inductive HttpStatus where
  | ok200
  | accepted202
  | badRequest400
  | unauthorized401
  | notFound404
deriving DecidableEq, Repr

/-- `apiKeyMiddleware` of `src/httpServer.ts`: `if (!apiKey) return 401`
on the `x-api-key` header, otherwise fall through to the route handler
(`none` = pass). -/
def apiKeyMiddleware (apiKey : Option String) : Option HttpStatus :=
  if jsFalsyString apiKey then some .unauthorized401 else none

def mapGet (m : List (Nat × SSESession)) (k : Nat) : Option SSESession :=
  (m.find? (fun p => p.1 == k)).map Prod.snd

/-- `Map.set`: overwrite in place when the key exists, else append. -/
def mapSet (m : List (Nat × SSESession)) (k : Nat) (v : SSESession) :
    List (Nat × SSESession) :=
  if m.any (fun p => p.1 == k) then
    m.map (fun p => if p.1 == k then (k, v) else p)
  else m ++ [(k, v)]

/-- `Map.delete`. -/
def mapDelete (m : List (Nat × SSESession)) (k : Nat) :
    List (Nat × SSESession) :=
  m.filter (fun p => p.1 != k)

/-- The observable requests against the HTTP surface: opening an SSE
stream (`GET /mcp`), the stream's close event, and posting a command
(`POST /mcp/message?sessionId=...`).  Credential headers are carried on
the two authenticated entry points. -/
inductive HttpEvent where
  | openStream (apiKey : Option String)
  | closeStream (sessionId : Nat)
  | post (apiKey : Option String) (sessionId : Option Nat) (body : RpcRequest)
deriving DecidableEq, Repr

/-- One step of the HTTP server, from `src/httpServer.ts`:
`GET /mcp` mints a fresh transport and stores it in the session table;
the stream's close event deletes its entry; `POST /mcp/message` runs the
credential gate, requires a `sessionId` query parameter (400 when
absent), looks it up (404 when unknown) and otherwise delegates to the
SDK transport's `handlePostMessage`, which forwards the parsed envelope
to the transport's message callback when one is connected and
acknowledges with 202. -/
def step (s : HttpState) (e : HttpEvent) : HttpState × HttpStatus :=
  match e with
  | .openStream apiKey =>
    match apiKeyMiddleware apiKey with
    | some st => (s, st)
    | none =>
      let sid := s.nextSessionId
      let t : SSESession := { sessionId := sid, connected := false,
                              dispatched := [], streamed := [] }
      ({ sessions := mapSet s.sessions sid t, nextSessionId := sid + 1 }, .ok200)
  | .closeStream sid =>
    ({ s with sessions := mapDelete s.sessions sid }, .ok200)
  | .post apiKey sid? body =>
    match apiKeyMiddleware apiKey with
    | some st => (s, st)
    | none =>
      match sid? with
      | none => (s, .badRequest400)
      | some sid =>
        match mapGet s.sessions sid with
        | none => (s, .notFound404)
        | some t =>
          let t' := if t.connected then { t with dispatched := t.dispatched ++ [body] }
                    else t
          ({ s with sessions := mapSet s.sessions sid t' }, .accepted202)

/-- The state reached from `s0` after a sequence of events. -/
def runFrom (s0 : HttpState) (tr : List HttpEvent) : HttpState :=
  tr.foldl (fun s e => (step s e).1) s0

/-- The state reached from a fresh server after a sequence of events. -/
def run (tr : List HttpEvent) : HttpState :=
  runFrom initialHttpState tr

def sessionIds (s : HttpState) : List Nat :=
  s.sessions.map Prod.fst

/-! ## Invariants of the session table -/

/-- A transport as `startHttpServer` creates it and — since nothing ever
connects it to the MCP server — as it stays: no message callback, nothing
dispatched, nothing streamed. -/
def pristine (t : SSESession) : Prop :=
  t.connected = false ∧ t.dispatched = [] ∧ t.streamed = []

/-- Reachable-state invariant: all table keys are below the freshness
counter, and every stored transport is pristine. -/
def goodState (s : HttpState) : Prop :=
  (∀ k ∈ sessionIds s, k < s.nextSessionId) ∧ (∀ p ∈ s.sessions, pristine p.2)

lemma mem_of_mem_mapSet {m : List (Nat × SSESession)} {k : Nat} {v : SSESession}
    {p : Nat × SSESession} (h : p ∈ mapSet m k v) : p ∈ m ∨ p = (k, v) := by
  unfold mapSet at h
  split at h
  · rcases List.mem_map.1 h with ⟨q, hq, hqe⟩
    by_cases hk : (q.1 == k) = true
    · right
      rw [if_pos hk] at hqe
      exact hqe.symm
    · left
      rw [if_neg hk] at hqe
      exact hqe ▸ hq
  · rcases List.mem_append.1 h with h1 | h1
    · exact Or.inl h1
    · right
      simpa using h1

lemma key_mem_mapSet {m : List (Nat × SSESession)} {k : Nat} {v : SSESession} :
    k ∈ (mapSet m k v).map Prod.fst := by
  unfold mapSet
  split
  next hc =>
    rcases List.any_eq_true.1 hc with ⟨q, hq, hqk⟩
    refine List.mem_map.2 ⟨(k, v), ?_, rfl⟩
    refine List.mem_map.2 ⟨q, hq, ?_⟩
    rw [if_pos hqk]
  next =>
    refine List.mem_map.2 ⟨(k, v), ?_, rfl⟩
    simp

lemma mapGet_mem {m : List (Nat × SSESession)} {k : Nat} {t : SSESession}
    (h : mapGet m k = some t) : (k, t) ∈ m := by
  unfold mapGet at h
  cases hf : m.find? (fun p => p.1 == k) with
  | none => rw [hf] at h; simp at h
  | some q =>
    rw [hf] at h
    have hmem := List.mem_of_find?_eq_some hf
    have hkey := List.find?_some hf
    obtain ⟨a, b⟩ := q
    simp at h hkey
    subst hkey
    subst h
    exact hmem

lemma key_mem_of_mapGet {m : List (Nat × SSESession)} {k : Nat} {t : SSESession}
    (h : mapGet m k = some t) : k ∈ m.map Prod.fst :=
  List.mem_map.2 ⟨(k, t), mapGet_mem h, rfl⟩

lemma mapGet_eq_none_iff {m : List (Nat × SSESession)} {k : Nat} :
    mapGet m k = none ↔ k ∉ m.map Prod.fst := by
  unfold mapGet
  rw [Option.map_eq_none', List.find?_eq_none]
  constructor
  · intro h hk
    rcases List.mem_map.1 hk with ⟨p, hp, hpk⟩
    exact absurd (by simpa using hpk) (by simpa using h p hp)
  · intro h p hp
    simp only [beq_iff_eq]
    intro hpk
    exact h (List.mem_map.2 ⟨p, hp, hpk⟩)

lemma step_good {s : HttpState} {e : HttpEvent} (hg : goodState s) :
    goodState (step s e).1 := by
  obtain ⟨hkeys, hpr⟩ := hg
  cases e with
  | openStream apiKey =>
    simp only [step]
    cases hgate : apiKeyMiddleware apiKey with
    | some st => exact ⟨hkeys, hpr⟩
    | none =>
      constructor
      · intro k hk
        rcases List.mem_map.1 hk with ⟨p, hp, hpk⟩
        rcases mem_of_mem_mapSet hp with h1 | h1
        · have := hkeys p.1 (List.mem_map.2 ⟨p, h1, rfl⟩)
          simp only [← hpk]
          omega
        · subst h1
          simp only [← hpk]
          omega
      · intro p hp
        rcases mem_of_mem_mapSet hp with h1 | h1
        · exact hpr p h1
        · subst h1
          exact ⟨rfl, rfl, rfl⟩
  | closeStream sid =>
    constructor
    · intro k hk
      rcases List.mem_map.1 hk with ⟨p, hp, hpk⟩
      have hp' : p ∈ s.sessions := List.mem_of_mem_filter hp
      exact hpk ▸ hkeys p.1 (List.mem_map.2 ⟨p, hp', rfl⟩)
    · intro p hp
      exact hpr p (List.mem_of_mem_filter hp)
  | post apiKey sid? body =>
    simp only [step]
    split
    · exact ⟨hkeys, hpr⟩
    · split
      · exact ⟨hkeys, hpr⟩
      · rename_i sid
        split
        · exact ⟨hkeys, hpr⟩
        · rename_i t hget
          have htmem : (sid, t) ∈ s.sessions := mapGet_mem hget
          have htpr : pristine t := hpr _ htmem
          have hco : ¬ t.connected = true := by simp [htpr.1]
          simp only [if_neg hco]
          constructor
          · intro k hk
            rcases List.mem_map.1 hk with ⟨p, hp, hpk⟩
            rcases mem_of_mem_mapSet hp with h1 | h1
            · exact hpk ▸ hkeys p.1 (List.mem_map.2 ⟨p, h1, rfl⟩)
            · subst h1
              exact hpk ▸ hkeys sid (List.mem_map.2 ⟨(sid, t), htmem, rfl⟩)
          · intro p hp
            rcases mem_of_mem_mapSet hp with h1 | h1
            · exact hpr p h1
            · subst h1
              exact htpr

lemma runFrom_good {s0 : HttpState} (tr : List HttpEvent) (hg : goodState s0) :
    goodState (runFrom s0 tr) := by
  induction tr generalizing s0 with
  | nil => exact hg
  | cons e tr ih => exact ih (step_good hg)

lemma run_good (tr : List HttpEvent) : goodState (run tr) := by
  refine runFrom_good tr ⟨?_, ?_⟩ <;> intro x hx <;> simp [initialHttpState, sessionIds] at hx

lemma step_stayOut {s : HttpState} {e : HttpEvent} {k : Nat} (hg : goodState s)
    (hk : k < s.nextSessionId) (hout : k ∉ sessionIds s) :
    k < (step s e).1.nextSessionId ∧ k ∉ sessionIds (step s e).1 := by
  obtain ⟨hkeys, hpr⟩ := hg
  cases e with
  | openStream apiKey =>
    simp only [step]
    cases hgate : apiKeyMiddleware apiKey with
    | some st => exact ⟨hk, hout⟩
    | none =>
      refine ⟨by simpa using Nat.lt_succ_of_lt hk, ?_⟩
      intro hmem
      rcases List.mem_map.1 hmem with ⟨p, hp, hpk⟩
      rcases mem_of_mem_mapSet hp with h1 | h1
      · exact hout (hpk ▸ List.mem_map.2 ⟨p, h1, rfl⟩)
      · subst h1
        simp only at hpk
        omega
  | closeStream sid =>
    refine ⟨hk, ?_⟩
    intro hmem
    rcases List.mem_map.1 hmem with ⟨p, hp, hpk⟩
    exact hout (hpk ▸ List.mem_map.2 ⟨p, List.mem_of_mem_filter hp, rfl⟩)
  | post apiKey sid? body =>
    simp only [step]
    split
    · exact ⟨hk, hout⟩
    · split
      · exact ⟨hk, hout⟩
      · rename_i sid
        split
        · exact ⟨hk, hout⟩
        · rename_i t hget
          refine ⟨hk, ?_⟩
          intro hmem
          rcases List.mem_map.1 hmem with ⟨p, hp, hpk⟩
          rcases mem_of_mem_mapSet hp with h1 | h1
          · exact hout (hpk ▸ List.mem_map.2 ⟨p, h1, rfl⟩)
          · subst h1
            exact hout (hpk ▸ key_mem_of_mapGet hget)

lemma runFrom_stayOut {s0 : HttpState} {k : Nat} (tr : List HttpEvent)
    (hg : goodState s0) (hk : k < s0.nextSessionId) (hout : k ∉ sessionIds s0) :
    k ∉ sessionIds (runFrom s0 tr) := by
  induction tr generalizing s0 with
  | nil => exact hout
  | cons e tr ih =>
    obtain ⟨hk', hout'⟩ := step_stayOut (e := e) ⟨hg.1, hg.2⟩ hk hout
    exact ih (step_good ⟨hg.1, hg.2⟩) hk' hout'

lemma runFrom_append (s0 : HttpState) (a b : List HttpEvent) :
    runFrom s0 (a ++ b) = runFrom (runFrom s0 a) b :=
  List.foldl_append _ _ a b

lemma run_append (a b : List HttpEvent) : run (a ++ b) = runFrom (run a) b :=
  runFrom_append initialHttpState a b

lemma not_mem_mapDelete {m : List (Nat × SSESession)} {k : Nat} :
    k ∉ (mapDelete m k).map Prod.fst := by
  intro hmem
  rcases List.mem_map.1 hmem with ⟨p, hp, hpk⟩
  have := (List.mem_filter.1 hp).2
  simp only [bne_iff_ne] at this
  exact this hpk

lemma checkStringField_path {raw : RawArgs} {f : ZStringField} {i : ZodIssue}
    (h : checkStringField raw f = some i) : i.path = [f.name] := by
  unfold checkStringField at h
  split at h
  · split at h
    · simp at h
    · rw [Option.some.injEq] at h
      subst h
      rfl
  · split at h
    · rw [Option.some.injEq] at h
      subst h
      rfl
    · simp at h
  · rw [Option.some.injEq] at h
    subst h
    rfl

/-- The zod field list the `callTool` switch validates against, per tool
name (mirrors the three `case` branches of `src/index.ts`). -/
def toolSchemaFields (name : String) : Option (List ZStringField) :=
  if name == screenshotToolName then some ScreenshotToolSchemaFields
  else if name == architectToolName then some ArchitectToolSchemaFields
  else if name == codeReviewToolName then some CodeReviewToolSchemaFields
  else none

/-- A concrete environment used to evaluate the embedded code at specific
inputs. -/
def sampleEnv : HandlerEnv :=
  { screenshotBase64 := "QUJD",
    resolvePath := fun p => p,
    writeFile := fun _ => .ok (),
    architectOutcome := .ok "plan",
    gitDiff := fun _ => .ok "diff" }

/-- A concrete environment in which the git subprocess fails. -/
def sampleEnvGitFail : HandlerEnv :=
  { screenshotBase64 := "QUJD",
    resolvePath := fun p => p,
    writeFile := fun _ => .ok (),
    architectOutcome := .ok "plan",
    gitDiff := fun _ => .error "fatal: not a git repository" }

/-! ## Claim theorems -/

/-- Claim C2, counterexample: the claim says a `callTool` naming an
unregistered tool is answered with the method/tool-not-found error code.
At the concrete unregistered name "nonexistent" the dispatcher's default
branch raises a plain error, which the handler boundary converts to the
generic internal-error code — not the method/tool-not-found code. -/
theorem C2_counterexample :
    (dispatch sampleEnv ⟨.str "1", .callTool "nonexistent" []⟩).outcome
      = .error ⟨internalErrorCode, "internal error", some "Unknown tool: nonexistent"⟩
    ∧ internalErrorCode ≠ methodNotFoundCode := by
  exact ⟨rfl, by decide⟩

/-- Claim C2 (amended): every `callTool` request whose `params.name`
matches no registered tool is answered with an error envelope carrying the
generic internal-error code and the raised message `Unknown tool: <name>`
as the error detail (the default branch of the `callTool` switch throws a
plain error, converted at the handler boundary); the response does not
depend on any tool handler's behaviour. -/
theorem C2_unknown_tool (env env2 : HandlerEnv) (id : RpcId) (name : String)
    (args : RawArgs)
    (h1 : name ≠ screenshotToolName) (h2 : name ≠ architectToolName)
    (h3 : name ≠ codeReviewToolName) :
    dispatch env ⟨id, .callTool name args⟩
      = ⟨id, .error ⟨internalErrorCode, "internal error",
          some ("Unknown tool: " ++ name)⟩⟩
    ∧ dispatch env ⟨id, .callTool name args⟩
      = dispatch env2 ⟨id, .callTool name args⟩ := by
  constructor <;> simp [dispatch, callToolHandler, h1, h2, h3]

theorem C2_unknown_tool_witness :
    ("nonexistent2" ≠ screenshotToolName ∧ "nonexistent2" ≠ architectToolName
      ∧ "nonexistent2" ≠ codeReviewToolName)
    ∧ (dispatch sampleEnv ⟨.str "2", .callTool "nonexistent2" []⟩
        = ⟨.str "2", .error ⟨internalErrorCode, "internal error",
            some ("Unknown tool: " ++ "nonexistent2")⟩⟩
      ∧ dispatch sampleEnv ⟨.str "2", .callTool "nonexistent2" []⟩
        = dispatch sampleEnvGitFail ⟨.str "2", .callTool "nonexistent2" []⟩) :=
  ⟨⟨by decide, by decide, by decide⟩,
   C2_unknown_tool sampleEnv sampleEnvGitFail (.str "2") "nonexistent2" []
     (by decide) (by decide) (by decide)⟩

/-- Claim C3, counterexample: the claim says schema-violating arguments
yield the invalid-params error code.  At the concrete request
`callTool architect \x7b\x7d` the ZodError raised by
`ArchitectToolSchema.parse` is converted at the handler boundary to the
generic internal-error code — not the invalid-params code. -/
theorem C3_counterexample :
    (dispatch sampleEnv ⟨.num 7, .callTool "architect" []⟩).outcome
      = .error ⟨internalErrorCode, "internal error",
          some "task: Required; code: Required"⟩
    ∧ internalErrorCode ≠ invalidParamsCode := by
  exact ⟨rfl, by decide⟩

/-- Claim C3 (amended): for every `callTool` request naming a registered
tool whose arguments violate that tool's declared schema, the response is
an error envelope with the generic internal-error code carrying the
validator's rendered issue list as the error detail (the ZodError thrown
by `parse` is converted at the handler boundary), and the tool's handler
is never invoked — the response is independent of every handler's
behaviour. -/
theorem C3_invalid_params (env env2 : HandlerEnv) (id : RpcId) (name : String)
    (args : RawArgs) (fields : List ZStringField)
    (hf : toolSchemaFields name = some fields)
    (hbad : zodIssues fields args ≠ []) :
    dispatch env ⟨id, .callTool name args⟩
      = ⟨id, .error ⟨internalErrorCode, "internal error",
          some (zodErrorMessage (zodIssues fields args))⟩⟩
    ∧ dispatch env ⟨id, .callTool name args⟩
      = dispatch env2 ⟨id, .callTool name args⟩ := by
  by_cases hs : name = screenshotToolName
  · subst hs
    simp only [toolSchemaFields, beq_self_eq_true, if_true, Option.some.injEq] at hf
    subst hf
    cases hz : zodIssues ScreenshotToolSchemaFields args with
    | nil => exact absurd hz hbad
    | cons i is =>
      constructor <;>
        simp [dispatch, callToolHandler, ScreenshotToolSchema.parse, hz]
  · by_cases ha : name = architectToolName
    · subst ha
      simp only [toolSchemaFields] at hf
      rw [if_neg (by simp [architectToolName, screenshotToolName]),
          if_pos (by simp), Option.some.injEq] at hf
      subst hf
      cases hz : zodIssues ArchitectToolSchemaFields args with
      | nil => exact absurd hz hbad
      | cons i is =>
        constructor <;>
          simp [dispatch, callToolHandler, ArchitectToolSchema.parse, hz,
                architectToolName, screenshotToolName]
    · by_cases hc : name = codeReviewToolName
      · subst hc
        simp only [toolSchemaFields] at hf
        rw [if_neg (by simp [codeReviewToolName, screenshotToolName]),
            if_neg (by simp [codeReviewToolName, architectToolName]),
            if_pos (by simp), Option.some.injEq] at hf
        subst hf
        cases hz : zodIssues CodeReviewToolSchemaFields args with
        | nil => exact absurd hz hbad
        | cons i is =>
          constructor <;>
            simp [dispatch, callToolHandler, CodeReviewToolSchema.parse, hz,
                  codeReviewToolName, screenshotToolName, architectToolName]
      · simp [toolSchemaFields, hs, ha, hc] at hf

theorem C3_invalid_params_witness :
    (toolSchemaFields "architect" = some ArchitectToolSchemaFields
      ∧ zodIssues ArchitectToolSchemaFields [("task", ZValue.str "do it")] ≠ [])
    ∧ (dispatch sampleEnv ⟨.num 8, .callTool "architect" [("task", ZValue.str "do it")]⟩
        = ⟨.num 8, .error ⟨internalErrorCode, "internal error",
            some (zodErrorMessage
              (zodIssues ArchitectToolSchemaFields [("task", ZValue.str "do it")]))⟩⟩
      ∧ dispatch sampleEnv ⟨.num 8, .callTool "architect" [("task", ZValue.str "do it")]⟩
        = dispatch sampleEnvGitFail
            ⟨.num 8, .callTool "architect" [("task", ZValue.str "do it")]⟩) :=
  ⟨⟨by decide, by decide⟩,
   C3_invalid_params sampleEnv sampleEnvGitFail (.num 8) "architect"
     [("task", ZValue.str "do it")] ArchitectToolSchemaFields (by decide) (by decide)⟩

/-- Claim C4: a `callTool` invocation whose handler raises is caught at
the handler boundary and converted to exactly one error envelope with the
internal-error code and the raised message as the error detail; the
dispatcher (a total function) does not crash, and every subsequent request
on the session is answered exactly as it would be on a fresh session. -/
theorem C4_handler_raise (env : HandlerEnv) (id : RpcId) (name : String)
    (args : RawArgs) (msg : String) (reqs : List RpcRequest)
    (h : callToolHandler env name args = .error msg) :
    dispatch env ⟨id, .callTool name args⟩
      = ⟨id, .error ⟨internalErrorCode, "internal error", some msg⟩⟩
    ∧ dispatchAll env (⟨id, .callTool name args⟩ :: reqs)
      = ⟨id, .error ⟨internalErrorCode, "internal error", some msg⟩⟩
        :: reqs.map (dispatch env) := by
  have h1 : dispatch env ⟨id, .callTool name args⟩
      = ⟨id, .error ⟨internalErrorCode, "internal error", some msg⟩⟩ := by
    simp [dispatch, h]
  exact ⟨h1, by simp [dispatchAll, h1]⟩

theorem C4_handler_raise_witness :
    callToolHandler sampleEnv "screenshot" [("fullPathToScreenshot", ZValue.str "/tmp/a.png")]
      = .error "Must provide either \x27url\x27 or \x27relativePath\x27"
    ∧ (dispatch sampleEnv
          ⟨.str "9", .callTool "screenshot" [("fullPathToScreenshot", ZValue.str "/tmp/a.png")]⟩
        = ⟨.str "9", .error ⟨internalErrorCode, "internal error",
            some "Must provide either \x27url\x27 or \x27relativePath\x27"⟩⟩
      ∧ dispatchAll sampleEnv
          (⟨.str "9", .callTool "screenshot" [("fullPathToScreenshot", ZValue.str "/tmp/a.png")]⟩
            :: [⟨.str "10", .listTools none⟩])
        = ⟨.str "9", .error ⟨internalErrorCode, "internal error",
            some "Must provide either \x27url\x27 or \x27relativePath\x27"⟩⟩
          :: List.map (dispatch sampleEnv) [⟨.str "10", .listTools none⟩]) :=
  ⟨rfl,
   C4_handler_raise sampleEnv (.str "9") "screenshot"
     [("fullPathToScreenshot", ZValue.str "/tmp/a.png")]
     "Must provide either \x27url\x27 or \x27relativePath\x27"
     [⟨.str "10", .listTools none⟩] rfl⟩

/-- Claim C7: every `listTools` request, whatever its params, its id, or
the handler environment, is answered with exactly the registered
descriptor list — verbatim, in registration order (screenshot, architect,
code-review), with no duplicate names — and the result is identical across
repeated calls. -/
theorem C7_list_tools (env env2 : HandlerEnv) (id id2 : RpcId)
    (p q : Option RawArgs) :
    dispatch env ⟨id, .listTools p⟩ = ⟨id, .result (.tools registeredTools)⟩
    ∧ (dispatch env ⟨id, .listTools p⟩).outcome
        = (dispatch env2 ⟨id2, .listTools q⟩).outcome
    ∧ registeredTools.map ToolDescriptor.name
        = [screenshotToolName, architectToolName, codeReviewToolName]
    ∧ (registeredTools.map ToolDescriptor.name).Nodup := by
  refine ⟨rfl, rfl, rfl, ?_⟩
  decide

/-- Claim C8: a `callTool` request for the screenshot tool with `url` and
`fullPathToScreenshot` arguments, on the path where the handler produces
one text part and one image part (a non-empty url — a JS-falsy url with no
relativePath raises instead — and a successful save), is answered with a
result whose `content` has exactly two entries, the text part first and
the image part second; the order is preserved end-to-end through the
dispatcher. -/
theorem C8_screenshot_content (env : HandlerEnv) (id : RpcId) (u p : String)
    (hu : u ≠ "") (hw : env.writeFile (env.resolvePath p) = .ok ()) :
    ∃ t i,
      dispatch env ⟨id, .callTool screenshotToolName
          [("url", ZValue.str u), ("fullPathToScreenshot", ZValue.str p)]⟩
        = ⟨id, .result (.toolResult ⟨[ContentPart.text t, ContentPart.image i]⟩)⟩ := by
  refine ⟨"Screenshot of " ++ u ++ " has been captured and saved to "
            ++ env.resolvePath p ++ ".",
          "data:image/png;base64," ++ env.screenshotBase64, ?_⟩
  have hparse : ScreenshotToolSchema.parse
      [("url", ZValue.str u), ("fullPathToScreenshot", ZValue.str p)]
      = .ok ⟨some u, none, p⟩ := rfl
  simp [dispatch, callToolHandler, hparse, runScreenshotTool, jsFalsyString, hu, hw]

theorem C8_screenshot_content_witness :
    ("https://example.com" ≠ ""
      ∧ sampleEnv.writeFile (sampleEnv.resolvePath "/tmp/a.png") = .ok ())
    ∧ ∃ t i,
        dispatch sampleEnv ⟨.str "1", .callTool screenshotToolName
            [("url", ZValue.str "https://example.com"),
             ("fullPathToScreenshot", ZValue.str "/tmp/a.png")]⟩
          = ⟨.str "1", .result (.toolResult ⟨[ContentPart.text t, ContentPart.image i]⟩)⟩ :=
  ⟨⟨by decide, rfl⟩,
   C8_screenshot_content sampleEnv (.str "1") "https://example.com" "/tmp/a.png"
     (by decide) rfl⟩

/-- Claim C9, counterexample: the claim says the validator reports only
the first violation found.  On `ArchitectToolSchema.parse \x7b\x7d` the
validator reports two violations (both missing fields), not one. -/
theorem C9_counterexample :
    ArchitectToolSchema.parse []
      = .error [⟨.invalidType, ["task"], "Required"⟩,
                ⟨.invalidType, ["code"], "Required"⟩]
    ∧ (zodIssues ArchitectToolSchemaFields []).length ≠ 1 := by
  exact ⟨rfl, by decide⟩

/-- Claim C9 (amended): the schema validator is a pure (side-effect free)
function, hence deterministic; on invalid input it reports every
violation — not only the first — each named with the offending field's
path, in stable field-declaration order. -/
theorem C9_validator (fields : List ZStringField) (raw : RawArgs) :
    (zodIssues fields raw).map ZodIssue.path
      = (fields.filter (fun f => (checkStringField raw f).isSome)).map
          (fun f => [f.name])
    ∧ (∀ i ∈ zodIssues fields raw,
        ∃ f ∈ fields, i.path = [f.name] ∧ checkStringField raw f = some i)
    ∧ (zodIssues fields raw = [] ↔ ∀ f ∈ fields, checkStringField raw f = none) := by
  refine ⟨?_, ?_, ?_⟩
  · induction fields with
    | nil => rfl
    | cons f fs ih =>
      cases hf : checkStringField raw f with
      | none => simpa [zodIssues, List.filterMap_cons, hf] using ih
      | some i =>
        simpa [zodIssues, List.filterMap_cons, hf, checkStringField_path hf] using ih
  · intro i hi
    rcases List.mem_filterMap.1 hi with ⟨f, hf, hcf⟩
    exact ⟨f, hf, checkStringField_path hcf, hcf⟩
  · simp [zodIssues, List.filterMap_eq_nil_iff]

/-- Claim C10: for every folder path and every outcome of the git
subprocess, `runCodeReviewTool` is total (the embedded function cannot
raise: the `execSync` call sits inside a try/catch) and returns exactly
one text content part; when the git diff command fails, the failure text
is embedded inside that text part rather than surfaced as an exception or
an error envelope. -/
theorem C10_code_review (env : HandlerEnv) (args : CodeReviewArgs) (err : String)
    (h : env.gitDiff args.folderPath = .error err) :
    runCodeReviewTool env args
      = ⟨[ContentPart.text ("Git Diff Output:\n" ++ ("Error running git diff: " ++ err)
            ++ "\n\nInstructions:\n" ++ codeReviewInstructions)]⟩
    ∧ ∀ env2 args2, (runCodeReviewTool env2 args2).content.length = 1
        ∧ ∀ part ∈ (runCodeReviewTool env2 args2).content, part.isText = true := by
  constructor
  · simp [runCodeReviewTool, h]
  · intro env2 args2
    refine ⟨rfl, ?_⟩
    intro part hp
    simp only [runCodeReviewTool, List.mem_singleton] at hp
    subst hp
    rfl

theorem C10_code_review_witness :
    sampleEnvGitFail.gitDiff "/tmp/x" = .error "fatal: not a git repository"
    ∧ (runCodeReviewTool sampleEnvGitFail ⟨"/tmp/x"⟩
        = ⟨[ContentPart.text ("Git Diff Output:\n"
              ++ ("Error running git diff: " ++ "fatal: not a git repository")
              ++ "\n\nInstructions:\n" ++ codeReviewInstructions)]⟩
      ∧ ∀ env2 args2, (runCodeReviewTool env2 args2).content.length = 1
          ∧ ∀ part ∈ (runCodeReviewTool env2 args2).content, part.isText = true) :=
  ⟨rfl, C10_code_review sampleEnvGitFail ⟨"/tmp/x"⟩ "fatal: not a git repository" rfl⟩

/-- Claim C6, counterexample: the claim says the gate's outcome depends
only on the presence of the credential header, never on its value.  A
present but empty header value is rejected (the middleware tests JS
falsiness, and the empty string is falsy), while the present value "k"
passes — two present values with different outcomes. -/
theorem C6_counterexample :
    apiKeyMiddleware (some "") = some HttpStatus.unauthorized401
    ∧ apiKeyMiddleware (some "k") = none := by
  exact ⟨rfl, rfl⟩

/-- Claim C6 (amended): a request to either entry point with an absent —
or present but empty — credential header is answered 401 with no session
lookup or dispatch (the server state is untouched); any request with a
non-empty credential value passes the gate, and beyond non-emptiness the
gate never inspects the value (all non-empty values are treated alike). -/
theorem C6_auth_gate (v w : String) (hv : v ≠ "") (hw : w ≠ "") :
    apiKeyMiddleware none = some HttpStatus.unauthorized401
    ∧ apiKeyMiddleware (some "") = some HttpStatus.unauthorized401
    ∧ apiKeyMiddleware (some v) = none
    ∧ apiKeyMiddleware (some v) = apiKeyMiddleware (some w)
    ∧ (∀ s sid body, step s (.post none sid body) = (s, .unauthorized401))
    ∧ (∀ s, step s (.openStream none) = (s, .unauthorized401))
    ∧ (∀ s sid body, step s (.post (some "") sid body) = (s, .unauthorized401)) := by
  have hgv : apiKeyMiddleware (some v) = none := by
    simp [apiKeyMiddleware, jsFalsyString, hv]
  have hgw : apiKeyMiddleware (some w) = none := by
    simp [apiKeyMiddleware, jsFalsyString, hw]
  refine ⟨rfl, rfl, hgv, hgv.trans hgw.symm, ?_, ?_, ?_⟩ <;> intros <;> rfl

theorem C6_auth_gate_witness :
    ("alpha" ≠ "" ∧ "beta" ≠ "")
    ∧ (apiKeyMiddleware none = some HttpStatus.unauthorized401
      ∧ apiKeyMiddleware (some "") = some HttpStatus.unauthorized401
      ∧ apiKeyMiddleware (some "alpha") = none
      ∧ apiKeyMiddleware (some "alpha") = apiKeyMiddleware (some "beta")
      ∧ (∀ s sid body, step s (.post none sid body) = (s, .unauthorized401))
      ∧ (∀ s, step s (.openStream none) = (s, .unauthorized401))
      ∧ (∀ s sid body, step s (.post (some "") sid body) = (s, .unauthorized401))) :=
  ⟨⟨by decide, by decide⟩, C6_auth_gate "alpha" "beta" (by decide) (by decide)⟩

/-- Claim C5: session-table invariant of the session transport.  For any
trace of HTTP events: while a session id is in the table, a credentialed
command post against it is accepted (202); opening a stream inserts a
fresh identifier that was not in the table before; closing the stream
removes its entry; and after the close, a post against that identifier is
rejected 404 after any continuation of the trace — a closed session is
never resumed under the same identifier (fresh ids are never reused). -/
theorem C5_session_lifecycle (tr tr2 : List HttpEvent) (s : Nat) (key : String)
    (body : RpcRequest) (hkey : key ≠ "") (hs : s ∈ sessionIds (run tr)) :
    (step (run tr) (.post (some key) (some s) body)).2 = .accepted202
    ∧ (run tr).nextSessionId ∉ sessionIds (run tr)
    ∧ (run tr).nextSessionId ∈ sessionIds (run (tr ++ [.openStream (some key)]))
    ∧ s ∉ sessionIds (run (tr ++ [.closeStream s]))
    ∧ (step (run (tr ++ [.closeStream s] ++ tr2))
        (.post (some key) (some s) body)).2 = .notFound404 := by
  have hgate : apiKeyMiddleware (some key) = none := by
    simp [apiKeyMiddleware, jsFalsyString, hkey]
  have hclose : run (tr ++ [.closeStream s]) = (step (run tr) (.closeStream s)).1 :=
    run_append tr [.closeStream s]
  have hcloseOut : s ∉ sessionIds (run (tr ++ [.closeStream s])) := by
    rw [hclose]
    exact not_mem_mapDelete
  refine ⟨?_, ?_, ?_, hcloseOut, ?_⟩
  · cases hget : mapGet (run tr).sessions s with
    | none => exact absurd hs (mapGet_eq_none_iff.1 hget)
    | some t => simp [step, hgate, hget]
  · intro hmem
    exact absurd ((run_good tr).1 _ hmem) (lt_irrefl _)
  · rw [run_append tr [.openStream (some key)]]
    show (run tr).nextSessionId ∈ sessionIds (step (run tr) (.openStream (some key))).1
    simp only [step, hgate]
    exact key_mem_mapSet
  · have hlt : s < (run tr).nextSessionId := (run_good tr).1 _ hs
    have hgood1 : goodState (run (tr ++ [.closeStream s])) := by
      rw [hclose]
      exact step_good (run_good tr)
    have hlt1 : s < (run (tr ++ [.closeStream s])).nextSessionId := by
      rw [hclose]
      exact hlt
    have happ : run (tr ++ [HttpEvent.closeStream s] ++ tr2)
        = runFrom (run (tr ++ [HttpEvent.closeStream s])) tr2 :=
      run_append (tr ++ [HttpEvent.closeStream s]) tr2
    have hout2 : s ∉ sessionIds (run (tr ++ [.closeStream s] ++ tr2)) := by
      rw [happ]
      exact runFrom_stayOut tr2 hgood1 hlt1 hcloseOut
    have hget : mapGet (run (tr ++ [.closeStream s] ++ tr2)).sessions s = none :=
      mapGet_eq_none_iff.2 hout2
    simp only [step, hgate, hget]

theorem C5_session_lifecycle_witness :
    ("k" ≠ "" ∧ 0 ∈ sessionIds (run [.openStream (some "k")]))
    ∧ ((step (run [.openStream (some "k")])
          (.post (some "k") (some 0) ⟨.str "1", .listTools none⟩)).2 = .accepted202
      ∧ (run [.openStream (some "k")]).nextSessionId
          ∉ sessionIds (run [.openStream (some "k")])
      ∧ (run [.openStream (some "k")]).nextSessionId
          ∈ sessionIds (run ([.openStream (some "k")] ++ [.openStream (some "k")]))
      ∧ 0 ∉ sessionIds (run ([.openStream (some "k")] ++ [.closeStream 0]))
      ∧ (step (run ([.openStream (some "k")] ++ [.closeStream 0] ++ [.openStream (some "k")]))
          (.post (some "k") (some 0) ⟨.str "1", .listTools none⟩)).2 = .notFound404) :=
  ⟨⟨by decide, by decide⟩,
   C5_session_lifecycle [.openStream (some "k")] [.openStream (some "k")] 0 "k"
     ⟨.str "1", .listTools none⟩ (by decide) (by decide)⟩

/-- Claim C1: command endpoint behaviour at `POST /mcp/message` with a
credential header.  The 404 half of the claim holds: an identifier absent
from the session table is answered 404 and the server state (hence the
Dispatcher) is untouched.  The delivery half fails in the code: a post
against a present session is acknowledged 202, but along every trace every
stored transport has an empty dispatched list and an empty stream — the
RPC envelope is never handed to the Request Dispatcher and no response is
ever delivered over the event stream, because `startHttpServer` never
connects the per-session transports to the MCP server (its `mcpServer`
parameter is unused; only the dummy transport it returns is connected). -/
theorem C1_command_endpoint (tr tr2 : List HttpEvent) (key : String) (sid : Nat)
    (body : RpcRequest) (hkey : key ≠ "") :
    (mapGet (run tr).sessions sid = none →
       step (run tr) (.post (some key) (some sid) body) = (run tr, .notFound404))
    ∧ (∀ t, mapGet (run tr).sessions sid = some t →
       (step (run tr) (.post (some key) (some sid) body)).2 = .accepted202)
    ∧ (∀ k t, mapGet (run tr2).sessions k = some t →
       t.dispatched = [] ∧ t.streamed = []) := by
  have hgate : apiKeyMiddleware (some key) = none := by
    simp [apiKeyMiddleware, jsFalsyString, hkey]
  refine ⟨?_, ?_, ?_⟩
  · intro hget
    simp [step, hgate, hget]
  · intro t hget
    simp [step, hgate, hget]
  · intro k t hget
    have hpr := (run_good tr2).2 _ (mapGet_mem hget)
    exact ⟨hpr.2.1, hpr.2.2⟩

theorem C1_command_endpoint_witness :
    ("k" ≠ "")
    ∧ ((mapGet (run [.openStream (some "k")]).sessions 5 = none →
         step (run [.openStream (some "k")])
             (.post (some "k") (some 5) ⟨.str "1", .listTools none⟩)
           = (run [.openStream (some "k")], .notFound404))
      ∧ (∀ t, mapGet (run [.openStream (some "k")]).sessions 5 = some t →
         (step (run [.openStream (some "k")])
             (.post (some "k") (some 5) ⟨.str "1", .listTools none⟩)).2 = .accepted202)
      ∧ (∀ k t, mapGet (run [.openStream (some "k"),
             .post (some "k") (some 0) ⟨.str "1", .listTools none⟩]).sessions k = some t →
         t.dispatched = [] ∧ t.streamed = [])) :=
  ⟨by decide,
   C1_command_endpoint [.openStream (some "k")]
     [.openStream (some "k"), .post (some "k") (some 0) ⟨.str "1", .listTools none⟩]
     "k" 5 ⟨.str "1", .listTools none⟩ (by decide)⟩

end DegenDuelMcp
